import Mathlib

/-!
Verification development for the `interpreter-demo` repository: a shallow
embedding in Lean 4 of the repository's lexer (`lexer/lexer.go`), parser
(`parser/parser.go`), object model, environment (`object/environment.go`)
and evaluator (`evaluator/evaluator.go`), followed by theorems settling the
specification claims about these components.

Conventions of the embedding:
- Go strings are Lean `String`s; Go bytes are Lean `Char`s (all inputs that
  reach the lexer in this development are ASCII, where the two coincide).
- Go's `int64` is modelled as `Int`; arithmetic that can overflow is wrapped
  to the 64-bit two's-complement range with `wrap64`.
- Mutable state (lexer cursor, parser state, environment, allocation of
  runtime objects) is threaded explicitly.
- Go loops that have no structural termination argument take an explicit
  fuel argument; running out of fuel yields `none`.  A loop of the source
  that genuinely cannot terminate is then refuted for every fuel.
- A Go `panic` (e.g. integer division by zero, nil-interface dereference)
  is modelled as an explicit `EvalResult.panic` outcome, distinct from every
  ordinary (`ok`) result.
-/

/-- Modelled from the spec: the `token` package is not among the provided
source files.  Following §3 of the spec ("Token: { kind: TokenKind, literal:
text }", with `TokenKind` a closed enumeration) and Go's declaration
`type TokenType string`, a token type is a string constant. -/
abbrev TokenType := String

/-- Modelled from the spec: a token is an immutable (type, literal) pair. -/
structure Token where
  type : TokenType
  literal : String
deriving DecidableEq, Repr

/-- Modelled from the spec: token kind constants of the `token` package
(end-of-input, illegal, identifier, integer-literal, operators, delimiters,
keywords). -/
def token.ILLEGAL : TokenType := "ILLEGAL"

def token.EOF : TokenType := "EOF"

def token.IDENT : TokenType := "IDENT"

def token.INT : TokenType := "INT"

def token.ASSIGN : TokenType := "="

def token.PLUS : TokenType := "+"

def token.MINUS : TokenType := "-"

def token.BANG : TokenType := "!"

def token.ASTERISK : TokenType := "*"

def token.SLASH : TokenType := "/"

def token.LT : TokenType := "<"

def token.GT : TokenType := ">"

def token.EQ : TokenType := "=="

def token.NOT_EQ : TokenType := "!="

def token.COMMA : TokenType := ","

def token.SEMICOLON : TokenType := ";"

def token.LPAREN : TokenType := "("

def token.RPAREN : TokenType := ")"

def token.LBRACE : TokenType := "\x7b"

def token.RBRACE : TokenType := "\x7d"

def token.FUNCTION : TokenType := "FUNCTION"

def token.LET : TokenType := "LET"

def token.TRUE : TokenType := "TRUE"

def token.FALSE : TokenType := "FALSE"

def token.IF : TokenType := "IF"

def token.ELSE : TokenType := "ELSE"

def token.RETURN : TokenType := "RETURN"

/-- Modelled from the spec: keyword lookup of the `token` package, mapping a
scanned identifier to its keyword kind, or `IDENT` if it is not a keyword
(the language's keywords per §3/§4: `fn let true false if else return`). -/
def token.LookupIdentifier (ident : String) : TokenType :=
  if ident = "fn" then token.FUNCTION
  else if ident = "let" then token.LET
  else if ident = "true" then token.TRUE
  else if ident = "false" then token.FALSE
  else if ident = "if" then token.IF
  else if ident = "else" then token.ELSE
  else if ident = "return" then token.RETURN
  else token.IDENT

/-- Lexer state, from `lexer/lexer.go`: the input, the current position, the
read position one past it, and the character under examination (`'\x00'`
plays the role of Go's NUL byte at end of input). -/
structure Lexer where
  input : List Char
  position : Nat
  readPosition : Nat
  ch : Char
deriving DecidableEq, Repr

/-- `Lexer.readChar`, from `lexer/lexer.go`: set `ch` to NUL on end of
input, otherwise to the character at `readPosition`; advance the cursor. -/
def Lexer.readChar (l : Lexer) : Lexer :=
  { input := l.input
    ch := if l.input.length ≤ l.readPosition then '\x00'
          else l.input.getD l.readPosition '\x00'
    position := l.readPosition
    readPosition := l.readPosition + 1 }

/-- `lexer.New`, from `lexer/lexer.go`: initialize the state with one
`readChar`. -/
def Lexer.New (input : List Char) : Lexer :=
  Lexer.readChar { input := input, position := 0, readPosition := 0, ch := '\x00' }

/-- `isDigit`, from `lexer/lexer.go`. -/
def lexIsDigit (ch : Char) : Bool :=
  '0' ≤ ch ∧ ch ≤ '9'

/-- `isLetter`, from `lexer/lexer.go`. -/
def lexIsLetter (ch : Char) : Bool :=
  ('a' ≤ ch ∧ ch ≤ 'z') ∨ ('A' ≤ ch ∧ ch ≤ 'Z') ∨ ch = '_'

/-- `isWhitespace`, from `lexer/lexer.go`: space, horizontal tab, newline,
vertical tab, form feed, carriage return. -/
def lexIsWhitespace (ch : Char) : Bool :=
  ch.toNat = 32 ∨ ch.toNat = 9 ∨ ch.toNat = 10 ∨ ch.toNat = 11 ∨
    ch.toNat = 12 ∨ ch.toNat = 13

/-- Fuelled character-consuming loop shared by `readIdentifier` and
`readNumber` of `lexer/lexer.go`: append `ch` and advance while `pred`
holds.  The callers pass fuel `input.length + 1`, which always suffices
because every iteration advances `position` and the predicate fails on the
NUL character produced past the end of input. -/
def Lexer.readCharsWhile (pred : Char → Bool) : Nat → Lexer → String → String × Lexer
  | 0, l, acc => (acc, l)
  | fuel + 1, l, acc =>
    if pred l.ch then Lexer.readCharsWhile pred fuel l.readChar (acc.push l.ch)
    else (acc, l)

/-- `Lexer.readIdentifier`, from `lexer/lexer.go`. -/
def Lexer.readIdentifier (l : Lexer) : String × Lexer :=
  Lexer.readCharsWhile lexIsLetter (l.input.length + 1) l ""

/-- `Lexer.readNumber`, from `lexer/lexer.go`. -/
def Lexer.readNumber (l : Lexer) : String × Lexer :=
  Lexer.readCharsWhile lexIsDigit (l.input.length + 1) l ""

/-- Fuelled whitespace-skipping loop of `Lexer.skipWhitespace`. -/
def Lexer.skipWhitespaceAux : Nat → Lexer → Lexer
  | 0, l => l
  | fuel + 1, l =>
    if lexIsWhitespace l.ch then Lexer.skipWhitespaceAux fuel l.readChar
    else l

/-- `Lexer.skipWhitespace`, from `lexer/lexer.go`; fuel `input.length + 1`
always suffices (see `Lexer.readCharsWhile`). -/
def Lexer.skipWhitespace (l : Lexer) : Lexer :=
  Lexer.skipWhitespaceAux (l.input.length + 1) l

/-- `newToken`, from `lexer/lexer.go`: a NUL character yields an empty
literal. -/
def newToken (tokenType : TokenType) (ch : Char) : Token :=
  if ch = '\x00' then { type := tokenType, literal := "" }
  else { type := tokenType, literal := String.singleton ch }

/-- `Lexer.NextToken`, from `lexer/lexer.go`: skip whitespace, then branch
on the current character; identifiers and numbers are scanned without the
trailing `readChar`, every other branch performs one `readChar`. -/
def Lexer.NextToken (l0 : Lexer) : Token × Lexer :=
  let l := l0.skipWhitespace
  if l.ch = '=' then (newToken token.ASSIGN l.ch, l.readChar)
  else if l.ch = ';' then (newToken token.SEMICOLON l.ch, l.readChar)
  else if l.ch = '(' then (newToken token.LPAREN l.ch, l.readChar)
  else if l.ch = ')' then (newToken token.RPAREN l.ch, l.readChar)
  else if l.ch = ',' then (newToken token.COMMA l.ch, l.readChar)
  else if l.ch = '+' then (newToken token.PLUS l.ch, l.readChar)
  else if l.ch = '-' then (newToken token.MINUS l.ch, l.readChar)
  else if l.ch = '!' then (newToken token.BANG l.ch, l.readChar)
  else if l.ch = '/' then (newToken token.SLASH l.ch, l.readChar)
  else if l.ch = '*' then (newToken token.ASTERISK l.ch, l.readChar)
  else if l.ch = '<' then (newToken token.LT l.ch, l.readChar)
  else if l.ch = '>' then (newToken token.GT l.ch, l.readChar)
  else if l.ch = '\x7b' then (newToken token.LBRACE l.ch, l.readChar)
  else if l.ch = '\x7d' then (newToken token.RBRACE l.ch, l.readChar)
  else if l.ch = '\x00' then (newToken token.EOF '\x00', l.readChar)
  else if lexIsLetter l.ch then
    let (lit, l') := l.readIdentifier
    ({ type := token.LookupIdentifier lit, literal := lit }, l')
  else if lexIsDigit l.ch then
    let (lit, l') := l.readNumber
    ({ type := token.INT, literal := lit }, l')
  else (newToken token.ILLEGAL l.ch, l.readChar)

/-- AST node for an identifier, from `ast/ast.go` (`ast.Identifier`). -/
structure Identifier where
  token : Token
  value : String
deriving DecidableEq, Repr

/-! The AST node family.  Go represents AST nodes as structs implementing
the open `ast.Node` interface (`ast/ast.go`); the closed variant set of this
repository is `Program`, `LetStatement`, `ReturnStatement`,
`ExpressionStatement`, `BlockStatement`, `Identifier`, `IntegerLiteral`,
`Boolean`, `PrefixExpression`, `InfixExpression` and `IfExpression` (the
last five are referenced by `evaluator/evaluator.go`; their struct shapes —
operator plus operand fields, condition/consequence/alternative, statement
list — are modelled from §3 of the spec since their source file revision is
not among the provided files).  A Go `nil` node value (a nilable
`ast.Expression` interface field, such as a `LetStatement.Value` the parser
never populated) is modelled by the `nilNode` variant.
-/
mutual
/-- AST node variants; see the comment above. -/
inductive Node where
  | program (statements : NodeList)
  | letStatement (token : Token) (name : Identifier) (value : Node)
  | returnStatement (token : Token) (returnValue : Node)
  | expressionStatement (token : Token) (expression : Node)
  | blockStatement (token : Token) (statements : NodeList)
  | identifier (token : Token) (value : String)
  | integerLiteral (token : Token) (value : Int)
  | booleanLiteral (token : Token) (value : Bool)
  | prefixExpression (token : Token) (operator : String) (right : Node)
  | infixExpression (token : Token) (operator : String) (left : Node) (right : Node)
  | ifExpression (token : Token) (condition : Node) (consequence : Node) (alternative : Node)
  | nilNode
inductive NodeList where
  | nil
  | cons (head : Node) (tail : NodeList)
end

deriving instance DecidableEq for Node
deriving instance DecidableEq for NodeList
deriving instance Repr for Node
deriving instance Repr for NodeList

/-- Conversion from Lean lists to the AST statement-list representation. -/
def NodeList.ofList : List Node → NodeList
  | [] => NodeList.nil
  | n :: rest => NodeList.cons n (NodeList.ofList rest)

/-- Precedence levels from `parser/parser.go` (iota-based constants).  The
source's `parseExpression` receives such a level but — unlike its own doc
comment and the spec — never consults it. -/
def LOWEST : Int := 1

/-- Precedence level `EQUALS` from `parser/parser.go`. -/
def EQUALS : Int := 2

/-- Precedence level `LESSGREATER` from `parser/parser.go`. -/
def LESSGREATER : Int := 3

/-- Precedence level `SUM` from `parser/parser.go`. -/
def SUM : Int := 4

/-- Precedence level `PRODUCT` from `parser/parser.go`. -/
def PRODUCT : Int := 5

/-- Precedence level `PREFIX` from `parser/parser.go`. -/
def PREFIX : Int := 6

/-- Precedence level `CALL` from `parser/parser.go`. -/
def CALL : Int := 7

/-- Go's `strconv.ParseInt(s, 0, 64)` as used by `parseIntegerLiteral`
(`parser/parser.go:214`), restricted to the literals this lexer can produce
(non-empty decimal-digit runs; `readNumber` admits nothing else): base 0
means a multi-digit literal with a leading `0` is read as octal (digits 8
and 9 are then invalid), anything else as decimal; values outside the
signed 64-bit range are an error (`none`). -/
def goParseIntBase0 (s : String) : Option Int :=
  match s.toList with
  | [] => none
  | ['0'] => some 0
  | '0' :: rest =>
    if rest.all (fun c => '0' ≤ c ∧ c ≤ '7') then
      let v : Nat := rest.foldl (fun acc c => acc * 8 + (c.toNat - 48)) 0
      if v ≤ 2 ^ 63 - 1 then some (v : Int) else none
    else none
  | cs =>
    if cs.all lexIsDigit then
      let v : Nat := cs.foldl (fun acc c => acc * 10 + (c.toNat - 48)) 0
      if v ≤ 2 ^ 63 - 1 then some (v : Int) else none
    else none

/-- Parser state, from `parser/parser.go`: the lexer, the two-token window
and the accumulated diagnostics.  The prefix/infix parse-function maps that
`New` populates (`parser.go:33-37`: `IDENT`, `INT`, `BANG`, `MINUS` as the
only prefix entries, and no infix entries at all) are modelled as the fixed
dispatch inside `Parser.parseExpression`. -/
structure Parser where
  l : Lexer
  currToken : Token
  peekToken : Token
  errors : List String
deriving DecidableEq, Repr

/-- `Parser.nextToken`, from `parser/parser.go:52`. -/
def Parser.nextToken (p : Parser) : Parser :=
  let (tok, l') := p.l.NextToken
  { l := l', currToken := p.peekToken, peekToken := tok, errors := p.errors }

/-- `parser.New`, from `parser/parser.go:25`: prime the two-token window by
reading two tokens. -/
def Parser.New (l : Lexer) : Parser :=
  (Parser.nextToken (Parser.nextToken
    { l := l
      currToken := { type := token.ILLEGAL, literal := "" }
      peekToken := { type := token.ILLEGAL, literal := "" }
      errors := [] }))

/-- `Parser.currTokenIs`, from `parser/parser.go:104`. -/
def Parser.currTokenIs (p : Parser) (t : TokenType) : Bool :=
  p.currToken.type = t

/-- `Parser.peekTokenIs`, from `parser/parser.go:108`. -/
def Parser.peekTokenIs (p : Parser) (t : TokenType) : Bool :=
  p.peekToken.type = t

/-- `Parser.peekError`, from `parser/parser.go:46`. -/
def Parser.peekError (p : Parser) (t : TokenType) : Parser :=
  { p with errors := p.errors ++
      ["expected next token to be " ++ t ++ ", got " ++ p.peekToken.type ++ " instead"] }

/-- `Parser.expectPeek`, from `parser/parser.go:115`: advance on a match,
record a diagnostic otherwise. -/
def Parser.expectPeek (p : Parser) (t : TokenType) : Bool × Parser :=
  if p.peekTokenIs t then (true, p.nextToken)
  else (false, p.peekError t)

/-- `Parser.noPrefixParserFnError`, from `parser/parser.go:202`. -/
def Parser.noPrefixParserFnError (p : Parser) (t : TokenType) : Parser :=
  { p with errors := p.errors ++ ["no prefix parse function for " ++ t ++ " found"] }

/-- `Parser.parseIntegerLiteral`, from `parser/parser.go:211`: parse the
current literal with `strconv.ParseInt(lit, 0, 64)`; on failure record a
diagnostic and return Go `nil` (modelled as `nilNode`). -/
def Parser.parseIntegerLiteral (p : Parser) : Node × Parser :=
  match goParseIntBase0 p.currToken.literal with
  | some v => (Node.integerLiteral p.currToken v, p)
  | none =>
    (Node.nilNode,
      { p with errors := p.errors ++
          ["could not parse \"" ++ p.currToken.literal ++ "\" as an integer"] })

/-- `Parser.parseExpression`, from `parser/parser.go:191`, together with the
prefix parse functions it can dispatch to (`parseIdentifier`,
`parseIntegerLiteral`, `parsePrefixExpression`, the only registrations made
in `New`).  The source looks up a prefix function for the current token,
invokes it, and returns its result directly — the `precedence` argument is
never consulted and no infix function is ever invoked (the infix map is
never populated and `parseExpression` never reads it).  `parsePrefixExpression`
(`parser.go:227`) advances one token and recurses at `PREFIX` precedence;
that recursion is bounded by the explicit fuel, with `none` meaning the
budget ran out. -/
def Parser.parseExpression : Nat → Int → Parser → Option (Node × Parser)
  | 0, _, _ => none
  | fuel + 1, _precedence, p =>
    if p.currToken.type = token.IDENT then
      -- parseIdentifier, parser.go:207
      some (Node.identifier p.currToken p.currToken.literal, p)
    else if p.currToken.type = token.INT then
      some p.parseIntegerLiteral
    else if p.currToken.type = token.BANG ∨ p.currToken.type = token.MINUS then
      -- parsePrefixExpression, parser.go:227
      let tok := p.currToken
      let op := p.currToken.literal
      match Parser.parseExpression fuel PREFIX p.nextToken with
      | none => none
      | some (right, p2) => some (Node.prefixExpression tok op right, p2)
    else
      some (Node.nilNode, p.noPrefixParserFnError p.currToken.type)

/-- `Parser.parseExpressionStatement`, from `parser/parser.go:160`: parse an
expression at `LOWEST` precedence and opportunistically consume a trailing
semicolon. -/
def Parser.parseExpressionStatement (fuel : Nat) (p : Parser) : Option (Node × Parser) :=
  match Parser.parseExpression fuel LOWEST p with
  | none => none
  | some (expr, p1) =>
    let p2 := if p1.peekTokenIs token.SEMICOLON then p1.nextToken else p1
    some (Node.expressionStatement p.currToken expr, p2)

/-- The token-skipping loop `for !p.currTokenIs(token.SEMICOLON) { p.nextToken() }`
shared by `parseLetStatement` (`parser/parser.go:97-99`) and
`parseReturnStatement` (`parser/parser.go:131-133`), bounded by fuel;
`none` means the loop was still running when the budget ran out.  Note the
loop condition tests only for `SEMICOLON`, never for `EOF`. -/
def Parser.skipToSemicolon : Nat → Parser → Option Parser
  | 0, _ => none
  | fuel + 1, p =>
    if p.currTokenIs token.SEMICOLON then some p
    else Parser.skipToSemicolon fuel p.nextToken

/-- `Parser.parseLetStatement`, from `parser/parser.go:83`: expect an
identifier and `=`, then (the value expression is never parsed — the source
carries a `TODO` at `parser.go:95`) skip to the next semicolon and return a
`LetStatement` whose `Value` field is left nil.  The inner `Option` is the
Go `nil` statement returned when `expectPeek` fails. -/
def Parser.parseLetStatement (fuel : Nat) (p : Parser) : Option (Option Node × Parser) :=
  let tok := p.currToken
  match p.expectPeek token.IDENT with
  | (false, p1) => some (none, p1)
  | (true, p1) =>
    let name : Identifier := { token := p1.currToken, value := p1.currToken.literal }
    match p1.expectPeek token.ASSIGN with
    | (false, p2) => some (none, p2)
    | (true, p2) =>
      match Parser.skipToSemicolon fuel p2 with
      | none => none
      | some p3 => some (some (Node.letStatement tok name Node.nilNode), p3)

/-- `Parser.parseReturnStatement`, from `parser/parser.go:124`: advance past
`return`, then (the value expression is never parsed — `TODO` at
`parser.go:129`) skip to the next semicolon and return a `ReturnStatement`
whose value field is left nil. -/
def Parser.parseReturnStatement (fuel : Nat) (p : Parser) : Option (Option Node × Parser) :=
  let tok := p.currToken
  match Parser.skipToSemicolon fuel p.nextToken with
  | none => none
  | some p2 => some (some (Node.returnStatement tok Node.nilNode), p2)

/-- `Parser.parseStatement`, from `parser/parser.go:72`: dispatch on the
current token's keyword. -/
def Parser.parseStatement (fuel : Nat) (p : Parser) : Option (Option Node × Parser) :=
  if p.currToken.type = token.LET then p.parseLetStatement fuel
  else if p.currToken.type = token.RETURN then p.parseReturnStatement fuel
  else
    match p.parseExpressionStatement fuel with
    | none => none
    | some (stmt, p1) => some (some stmt, p1)

/-- The statement loop of `Parser.ParseProgram` (`parser/parser.go:61-67`):
while the current token is not `EOF`, parse a statement, append it when
non-nil, and advance. -/
def Parser.ParseProgramLoop : Nat → Parser → List Node → Option (List Node × Parser)
  | 0, _, _ => none
  | fuel + 1, p, acc =>
    if p.currTokenIs token.EOF then some (acc, p)
    else
      match p.parseStatement fuel with
      | none => none
      | some (stmtOpt, p1) =>
        let acc' := match stmtOpt with
          | some stmt => acc ++ [stmt]
          | none => acc
        Parser.ParseProgramLoop fuel p1.nextToken acc'

/-- `Parser.ParseProgram`, from `parser/parser.go:57`. -/
def Parser.ParseProgram (fuel : Nat) (p : Parser) : Option (Node × Parser) :=
  match Parser.ParseProgramLoop fuel p [] with
  | none => none
  | some (stmts, p') => some (Node.program (NodeList.ofList stmts), p')

/-- The whole front end on a source string: lex, construct the parser as in
`parser.New`, run `ParseProgram` and return the program together with the
accumulated diagnostics (`Parser.Errors`, `parser/parser.go:42`);
`none` when the given fuel did not let the parser finish. -/
def parseProgram (fuel : Nat) (input : String) : Option (Node × List String) :=
  let p := Parser.New (Lexer.New input.toList)
  match p.ParseProgram fuel with
  | none => none
  | some (prog, p') => some (prog, p'.errors)

/-! The runtime value model.  The `object` package's value definitions are
not among the provided source files; the closed variant set, its fields and
its type tags are modelled from §3 of the spec (`Integer{value: i64}`,
`Boolean{value: bool}` with exactly the two process-wide shared instances
`TRUE`/`FALSE`, the single shared `Null`, `ReturnValue{inner}` and
`Error{message}`) together with the uses in `evaluator/evaluator.go`.

Go compares runtime values with interface equality (`left == right` in
`evalInfixExpression`), which for these pointer-backed variants is
allocation identity.  The embedding makes allocation identity explicit: the
heap-allocated variants (`integer`, `returnValue`, `error`) carry the
allocation identifier `id` handed out by the evaluator's threaded
allocation counter (two distinct allocations never share an `id`), while
`boolean` and `null` carry no identifier because the evaluator only ever
produces the shared singletons `TRUE`, `FALSE` and `NULL`
(`evaluator/evaluator.go:14-18`), for which identity and structural
equality coincide.  Fields that hold a Go `object.Object` interface value
(the `ReturnValue` payload, environment bindings, operands) are
possibly-nil, with the nil interface modelled as the `none` of
`Option Object` — except inside the `Object` inductive itself, where the
isomorphic companion type `ObjOpt` is used so that instance derivation
stays structural.
-/
mutual
/-- Runtime value variants; see the comment above. -/
inductive Object where
  | integer (id : Nat) (value : Int)
  | boolean (value : Bool)
  | null
  | returnValue (id : Nat) (value : ObjOpt)
  | error (id : Nat) (message : String)
/-- A possibly-nil runtime value stored inside another runtime value
(isomorphic to `Option Object`). -/
inductive ObjOpt where
  | none
  | some (obj : Object)
end

deriving instance DecidableEq for Object
deriving instance DecidableEq for ObjOpt
deriving instance Repr for Object
deriving instance Repr for ObjOpt

/-- Conversion from the companion type to `Option Object`. -/
def ObjOpt.toOption : ObjOpt → Option Object
  | .none => Option.none
  | .some o => Option.some o

/-- Conversion from `Option Object` to the companion type. -/
def ObjOpt.ofOption : Option Object → ObjOpt
  | Option.none => .none
  | Option.some o => .some o

/-- Modelled from the spec: type tag constant `INTEGER_OBJ`. -/
def object.INTEGER_OBJ : String := "INTEGER"

/-- Modelled from the spec: type tag constant `BOOLEAN_OBJ`. -/
def object.BOOLEAN_OBJ : String := "BOOLEAN"

/-- Modelled from the spec: type tag constant `NULL_OBJ`. -/
def object.NULL_OBJ : String := "NULL"

/-- Modelled from the spec: type tag constant `RETURN_VALUE_OBJ`. -/
def object.RETURN_VALUE_OBJ : String := "RETURN_VALUE"

/-- Modelled from the spec: type tag constant `ERROR_OBJ`. -/
def object.ERROR_OBJ : String := "ERROR"

/-- The `Type()` method of runtime values (the type tag of §3 of the
spec). -/
def Object.objType : Object → String
  | .integer _ _ => object.INTEGER_OBJ
  | .boolean _ => object.BOOLEAN_OBJ
  | .null => object.NULL_OBJ
  | .returnValue _ _ => object.RETURN_VALUE_OBJ
  | .error _ _ => object.ERROR_OBJ

/-- The shared `TRUE` singleton, `evaluator/evaluator.go:16`. -/
def TRUE : Object := Object.boolean true

/-- The shared `FALSE` singleton, `evaluator/evaluator.go:17`. -/
def FALSE : Object := Object.boolean false

/-- The shared `NULL` singleton, `evaluator/evaluator.go:15`. -/
def NULL : Object := Object.null

/-- Go interface equality `left == right` on two non-nil runtime values:
pointer identity for the heap-allocated variants (equal allocation
identifiers), and — because only the shared singletons exist — structural
equality for `boolean` and `null`; values of different dynamic types are
never equal. -/
def goRefEq : Object → Object → Bool
  | .integer i _, .integer j _ => i = j
  | .boolean a, .boolean b => a = b
  | .null, .null => true
  | .returnValue i _, .returnValue j _ => i = j
  | .error i _, .error j _ => i = j
  | _, _ => false

/-- Go interface equality on possibly-nil interface values: two nil
interfaces are equal, a nil and a non-nil interface are not. -/
def goRefEqOpt : Option Object → Option Object → Bool
  | some a, some b => goRefEq a b
  | none, none => true
  | _, _ => false

/-! Environment, from `object/environment.go`: a mutable mapping from names
to (possibly nil) runtime values plus an optional reference (`outer`, nil
for the top-level environment) to an enclosing environment.  The Go
`map[string]Object` is modelled as an association list without duplicate
keys (`Set` updates in place); the nilable `*Environment` pointer is the
companion type `EnvOpt`, isomorphic to `Option Environment`, so that
instance derivation stays structural. -/
mutual
/-- Environment record; see the comment above. -/
inductive Environment where
  | mk (store : List (String × Option Object)) (outer : EnvOpt)
/-- A possibly-nil reference to an enclosing environment. -/
inductive EnvOpt where
  | none
  | some (env : Environment)
end

deriving instance DecidableEq for Environment
deriving instance DecidableEq for EnvOpt
deriving instance Repr for Environment
deriving instance Repr for EnvOpt

/-- The `store` field of an environment. -/
def Environment.store : Environment → List (String × Option Object)
  | .mk s _ => s

/-- The `outer` field of an environment. -/
def Environment.outer : Environment → EnvOpt
  | .mk _ o => o

/-- `object.NewEnvironment`, from `object/environment.go:3`. -/
def NewEnvironment : Environment := Environment.mk [] EnvOpt.none

/-- `object.NewEnclosedEnviroment`, from `object/environment.go:8` (the
source spells it without the second `n`). -/
def NewEnclosedEnviroment (outer : Environment) : Environment :=
  Environment.mk [] (EnvOpt.some outer)

/-- Lookup in a single store (the Go map read `e.store[name]`). -/
def storeGet (store : List (String × Option Object)) (name : String) : Option (Option Object) :=
  match store with
  | [] => none
  | (k, v) :: rest => if k = name then some v else storeGet rest name

/-- In-place update of a single store (the Go map write
`e.store[name] = val`). -/
def storeSet (store : List (String × Option Object)) (name : String) (val : Option Object) :
    List (String × Option Object) :=
  match store with
  | [] => [(name, val)]
  | (k, v) :: rest => if k = name then (k, val) :: rest else (k, v) :: storeSet rest name val

/-- `Environment.Get`, from `object/environment.go:26`: check the local
store; on a miss, delegate to the outer environment when there is one
(`obj, ok := e.store[name]; if !ok && e.outer != nil { obj, ok =
e.outer.Get(name) }`).  `none` is Go's `ok = false`; a hit returns the
stored (possibly nil) value.  The two clauses split Go's single body on
whether `outer` is nil: with no outer environment the local lookup is the
whole answer. -/
def Environment.Get : Environment → String → Option (Option Object)
  | .mk store EnvOpt.none, name => storeGet store name
  | .mk store (EnvOpt.some o), name =>
    match storeGet store name with
    | some v => some v
    | none => Environment.Get o name

/-- `Environment.Set`, from `object/environment.go:35`: always write into
the local store, never into `outer` (the Go method also returns the value;
no caller in the evaluator uses that return). -/
def Environment.Set (e : Environment) (name : String) (val : Option Object) : Environment :=
  Environment.mk (storeSet e.store name val) e.outer

/-- Signed 64-bit two's-complement wrap-around, modelling Go `int64`
arithmetic overflow. -/
def wrap64 (x : Int) : Int :=
  (x + 2 ^ 63) % 2 ^ 64 - 2 ^ 63

/-- The result of one Go evaluator call: either an ordinary return (whose
value may be Go's nil, modelled `none`) or a runtime panic — an
out-of-band failure such as Go's "integer divide by zero" or a
nil-interface method call, which no code in the interpreter recovers
from. -/
inductive EvalResult where
  | ok (value : Option Object)
  | panic (message : String)
deriving DecidableEq, Repr

/-- `nativeBoolToBooleanObject`, from `evaluator/evaluator.go:130`: the
shared singletons are returned, never fresh allocations. -/
def nativeBoolToBooleanObject (input : Bool) : Object :=
  if input then TRUE else FALSE

/-- `newError`, from `evaluator/evaluator.go:260`: allocate a fresh `Error`
value carrying the formatted message; `σ` is the allocation counter. -/
def newError (message : String) (σ : Nat) : Object × Nat :=
  (Object.error σ message, σ + 1)

/-- `isError`, from `evaluator/evaluator.go:264`: nil is not an error. -/
def isError : Option Object → Bool
  | some obj => obj.objType = object.ERROR_OBJ
  | none => false

/-- `isTruthy`, from `evaluator/evaluator.go:242`: booleans are truthy iff
they are the `TRUE` singleton (`obj == TRUE`, identity), `NULL` is falsy,
integers are truthy iff nonzero, every other variant is truthy.  (Go takes
an interface argument and dereferences it; the nil case is handled — as a
panic — at the call site in the `IfExpression` arm of `Eval`.) -/
def isTruthy (obj : Object) : Bool :=
  if obj.objType = object.BOOLEAN_OBJ then goRefEq obj TRUE
  else if obj.objType = object.NULL_OBJ then false
  else if obj.objType = object.INTEGER_OBJ then
    match obj with
    | .integer _ v => v ≠ 0
    | _ => true
  else true

/-- `evalBangOperatorExpression`, from `evaluator/evaluator.go:148`: the
switch compares the operand against the shared singletons; any other value
— including Go's nil — falls to the default `FALSE`. -/
def evalBangOperatorExpression (right : Option Object) : Object :=
  if goRefEqOpt right (some TRUE) then FALSE
  else if goRefEqOpt right (some FALSE) then TRUE
  else if goRefEqOpt right (some NULL) then TRUE
  else FALSE

/-- `evalMinusPrefixOperatorExpression`, from `evaluator/evaluator.go:161`:
a non-`Integer` operand yields an `Error`; a nil operand makes the Go
method call `right.Type()` panic.  Negation of the stored `int64` wraps
(negating the minimum value yields itself). -/
def evalMinusPrefixOperatorExpression (right : Option Object) (σ : Nat) :
    EvalResult × Nat :=
  match right with
  | none => (EvalResult.panic "invalid memory address or nil pointer dereference", σ)
  | some r =>
    if r.objType ≠ object.INTEGER_OBJ then
      let (e, σ') := newError ("unknown operator: -" ++ r.objType) σ
      (EvalResult.ok (some e), σ')
    else
      match r with
      | .integer _ v => (EvalResult.ok (some (Object.integer σ (wrap64 (-v)))), σ + 1)
      | _ => (EvalResult.panic "interface conversion", σ)

/-- `evalPrefixExpression`, from `evaluator/evaluator.go:137`: dispatch on
the operator string; an unknown operator yields an `Error` naming the
operand's type (a Go panic when the operand is nil, since the message
formatting dereferences it). -/
def evalPrefixExpression (operator : String) (right : Option Object) (σ : Nat) :
    EvalResult × Nat :=
  if operator = "!" then (EvalResult.ok (some (evalBangOperatorExpression right)), σ)
  else if operator = "-" then evalMinusPrefixOperatorExpression right σ
  else
    match right with
    | none => (EvalResult.panic "invalid memory address or nil pointer dereference", σ)
    | some r =>
      let (e, σ') := newError ("unknown operator: " ++ operator ++ r.objType) σ
      (EvalResult.ok (some e), σ')

/-- `evalInfixIntegerExpression`, from `evaluator/evaluator.go:193`: both
operands are asserted to be `Integer`s; arithmetic wraps like Go `int64`,
and `/` is Go integer division — truncating, and a runtime panic ("integer
divide by zero") when the divisor is zero; comparisons return the shared
boolean singletons; any other operator yields an `Error`. -/
def evalInfixIntegerExpression (operator : String) (left right : Object) (σ : Nat) :
    EvalResult × Nat :=
  match left, right with
  | .integer _ leftValue, .integer _ rightValue =>
    if operator = token.PLUS then
      (EvalResult.ok (some (Object.integer σ (wrap64 (leftValue + rightValue)))), σ + 1)
    else if operator = token.MINUS then
      (EvalResult.ok (some (Object.integer σ (wrap64 (leftValue - rightValue)))), σ + 1)
    else if operator = token.ASTERISK then
      (EvalResult.ok (some (Object.integer σ (wrap64 (leftValue * rightValue)))), σ + 1)
    else if operator = token.SLASH then
      if rightValue = 0 then
        (EvalResult.panic "integer divide by zero", σ)
      else
        (EvalResult.ok (some (Object.integer σ (wrap64 (leftValue.tdiv rightValue)))), σ + 1)
    else if operator = token.GT then
      (EvalResult.ok (some (nativeBoolToBooleanObject (leftValue > rightValue))), σ)
    else if operator = token.LT then
      (EvalResult.ok (some (nativeBoolToBooleanObject (leftValue < rightValue))), σ)
    else if operator = token.EQ then
      (EvalResult.ok (some (nativeBoolToBooleanObject (leftValue = rightValue))), σ)
    else if operator = token.NOT_EQ then
      (EvalResult.ok (some (nativeBoolToBooleanObject (leftValue ≠ rightValue))), σ)
    else
      let (e, σ') := newError
        ("unknown operator: " ++ left.objType ++ " " ++ operator ++ " " ++ right.objType) σ
      (EvalResult.ok (some e), σ')
  | _, _ => (EvalResult.panic "interface conversion", σ)

/-- `evalInfixExpression`, from `evaluator/evaluator.go:170`.  The Go
switch tries, in order: (1) both operands of type `Integer` (evaluating
`left.Type()` first, so a nil left operand panics here, and a nil right
operand panics when the left is an `Integer`); (2) operator `==`:
interface-identity comparison — note this is checked before the
type-mismatch case, so `==`/`!=` on mixed types yield `FALSE`/`TRUE`, not
an error; (3) operator `!=` likewise; (4) differing types: "type mismatch"
`Error` (dereferences the right operand); (5) otherwise "unknown operator"
`Error`. -/
def evalInfixExpression (operator : String) (left right : Option Object) (σ : Nat) :
    EvalResult × Nat :=
  match left with
  | none => (EvalResult.panic "invalid memory address or nil pointer dereference", σ)
  | some l =>
    if l.objType = object.INTEGER_OBJ then
      match right with
      | none => (EvalResult.panic "invalid memory address or nil pointer dereference", σ)
      | some r =>
        if r.objType = object.INTEGER_OBJ then
          evalInfixIntegerExpression operator l r σ
        else if operator = token.EQ then
          (EvalResult.ok (some (nativeBoolToBooleanObject (goRefEqOpt left right))), σ)
        else if operator = token.NOT_EQ then
          (EvalResult.ok (some (nativeBoolToBooleanObject (!goRefEqOpt left right))), σ)
        else if l.objType ≠ r.objType then
          let (e, σ') := newError
            ("type mismatch: " ++ l.objType ++ " " ++ operator ++ " " ++ r.objType) σ
          (EvalResult.ok (some e), σ')
        else
          let (e, σ') := newError
            ("unknown operator: " ++ l.objType ++ " " ++ operator ++ " " ++ r.objType) σ
          (EvalResult.ok (some e), σ')
    else if operator = token.EQ then
      (EvalResult.ok (some (nativeBoolToBooleanObject (goRefEqOpt left right))), σ)
    else if operator = token.NOT_EQ then
      (EvalResult.ok (some (nativeBoolToBooleanObject (!goRefEqOpt left right))), σ)
    else
      match right with
      | none => (EvalResult.panic "invalid memory address or nil pointer dereference", σ)
      | some r =>
        if l.objType ≠ r.objType then
          let (e, σ') := newError
            ("type mismatch: " ++ l.objType ++ " " ++ operator ++ " " ++ r.objType) σ
          (EvalResult.ok (some e), σ')
        else
          let (e, σ') := newError
            ("unknown operator: " ++ l.objType ++ " " ++ operator ++ " " ++ r.objType) σ
          (EvalResult.ok (some e), σ')

/-- `evalIdentifier`, from `evaluator/evaluator.go:271`: look the name up
through the environment chain; an absent name yields an "identifier not
found" `Error`. -/
def evalIdentifier (name : String) (env : Environment) (σ : Nat) : EvalResult × Nat :=
  match env.Get name with
  | some val => (EvalResult.ok val, σ)
  | none =>
    let (e, σ') := newError ("identifier not found: " ++ name) σ
    (EvalResult.ok (some e), σ')

mutual
/-- `Eval`, from `evaluator/evaluator.go:20`: the exhaustive dispatch on
the AST node variant.  State threading: the (mutated-in-place in Go)
environment and the allocation counter are taken and returned explicitly.
The `IfExpression` arm inlines `evalIfExpression`
(`evaluator/evaluator.go:220`); a condition that evaluates to Go nil makes
`isTruthy` dereference a nil interface, modelled as a panic.  The
`LetStatement` arm (`evaluator.go:36-41`) breaks out of the switch after
`env.Set` and so falls through to the final `return nil`
(`evaluator.go:75`), which also covers the nil node. -/
def Eval : Node → Environment → Nat → EvalResult × Environment × Nat
  | Node.program stmts, env, σ => evalProgram stmts Option.none env σ
  | Node.expressionStatement _ expr, env, σ => Eval expr env σ
  | Node.blockStatement _ stmts, env, σ => evalBlockStatement stmts Option.none env σ
  | Node.returnStatement _ rv, env, σ =>
    match Eval rv env σ with
    | (EvalResult.panic m, e, s) => (EvalResult.panic m, e, s)
    | (EvalResult.ok val, e, s) =>
      if isError val then (EvalResult.ok val, e, s)
      else (EvalResult.ok (Option.some (Object.returnValue s (ObjOpt.ofOption val))), e, s + 1)
  | Node.letStatement _ name value, env, σ =>
    match Eval value env σ with
    | (EvalResult.panic m, e, s) => (EvalResult.panic m, e, s)
    | (EvalResult.ok val, e, s) =>
      if isError val then (EvalResult.ok val, e, s)
      else (EvalResult.ok Option.none, e.Set name.value val, s)
  | Node.integerLiteral _ v, env, σ =>
    (EvalResult.ok (Option.some (Object.integer σ v)), env, σ + 1)
  | Node.booleanLiteral _ b, env, σ =>
    (EvalResult.ok (Option.some (nativeBoolToBooleanObject b)), env, σ)
  | Node.prefixExpression _ op right, env, σ =>
    match Eval right env σ with
    | (EvalResult.panic m, e, s) => (EvalResult.panic m, e, s)
    | (EvalResult.ok r, e, s) =>
      if isError r then (EvalResult.ok r, e, s)
      else
        let (res, s') := evalPrefixExpression op r s
        (res, e, s')
  | Node.infixExpression _ op left right, env, σ =>
    match Eval left env σ with
    | (EvalResult.panic m, e, s) => (EvalResult.panic m, e, s)
    | (EvalResult.ok l, e1, s1) =>
      if isError l then (EvalResult.ok l, e1, s1)
      else
        match Eval right e1 s1 with
        | (EvalResult.panic m, e, s) => (EvalResult.panic m, e, s)
        | (EvalResult.ok r, e2, s2) =>
          if isError r then (EvalResult.ok r, e2, s2)
          else
            let (res, s3) := evalInfixExpression op l r s2
            (res, e2, s3)
  | Node.ifExpression _ cond conseq alt, env, σ =>
    match Eval cond env σ with
    | (EvalResult.panic m, e, s) => (EvalResult.panic m, e, s)
    | (EvalResult.ok c, e1, s1) =>
      if isError c then (EvalResult.ok c, e1, s1)
      else
        match c with
        | Option.none =>
          (EvalResult.panic "invalid memory address or nil pointer dereference", e1, s1)
        | Option.some cobj =>
          if isTruthy cobj then Eval conseq e1 s1
          else
            match alt with
            | Node.nilNode => (EvalResult.ok (Option.some NULL), e1, s1)
            | _ => Eval alt e1 s1
  | Node.identifier _ name, env, σ =>
    let (res, s') := evalIdentifier name env σ
    (res, env, s')
  | Node.nilNode, env, σ => (EvalResult.ok Option.none, env, σ)

/-- The statement loop of `evalProgram`, from `evaluator/evaluator.go:78`:
evaluate the statements in order into `result`; a `ReturnValue` stops the
loop and is unwrapped to its inner value, an `Error` stops the loop and is
yielded as is; otherwise the last statement's result (initially Go nil) is
the program's result. -/
def evalProgram : NodeList → Option Object → Environment → Nat →
    EvalResult × Environment × Nat
  | NodeList.nil, result, env, σ => (EvalResult.ok result, env, σ)
  | NodeList.cons stmt rest, _, env, σ =>
    match Eval stmt env σ with
    | (EvalResult.panic m, e, s) => (EvalResult.panic m, e, s)
    | (EvalResult.ok result, e, s) =>
      match result with
      | Option.some (Object.returnValue _ v) => (EvalResult.ok v.toOption, e, s)
      | Option.some (Object.error i m) =>
        (EvalResult.ok (Option.some (Object.error i m)), e, s)
      | r => evalProgram rest r e s

/-- The statement loop of `evalBlockStatement`, from
`evaluator/evaluator.go:99`: like `evalProgram`, but a non-nil result whose
type tag is `RETURN_VALUE` or `ERROR` stops the loop and is yielded
without unwrapping, so that enclosing blocks keep short-circuiting. -/
def evalBlockStatement : NodeList → Option Object → Environment → Nat →
    EvalResult × Environment × Nat
  | NodeList.nil, result, env, σ => (EvalResult.ok result, env, σ)
  | NodeList.cons stmt rest, _, env, σ =>
    match Eval stmt env σ with
    | (EvalResult.panic m, e, s) => (EvalResult.panic m, e, s)
    | (EvalResult.ok result, e, s) =>
      match result with
      | Option.some obj =>
        if obj.objType = object.RETURN_VALUE_OBJ ∨ obj.objType = object.ERROR_OBJ then
          (EvalResult.ok (Option.some obj), e, s)
        else evalBlockStatement rest (Option.some obj) e s
      | Option.none => evalBlockStatement rest Option.none e s
end

/-- A placeholder token for hand-constructed AST nodes: `Eval` never reads
the `token` field of a node (it exists for error reporting in the AST's
debug accessors only), so its value is irrelevant to every evaluation
theorem below. -/
def dummyToken : Token := { type := token.ILLEGAL, literal := "" }

/-- The AST of `5 / 0;` as an evaluator input: one `ExpressionStatement`
holding an `InfixExpression` with operator `/` and integer literal
operands `5` and `0`. -/
def progDivZero : Node :=
  Node.program (NodeList.ofList
    [Node.expressionStatement dummyToken
      (Node.infixExpression dummyToken "/"
        (Node.integerLiteral dummyToken 5) (Node.integerLiteral dummyToken 0))])

/-- The AST of `if (true) { if (true) { return 1; } return 0; }`: the
nested-return program of the spec's testable properties. -/
def progNestedReturn : Node :=
  Node.program (NodeList.ofList
    [Node.expressionStatement dummyToken
      (Node.ifExpression dummyToken (Node.booleanLiteral dummyToken true)
        (Node.blockStatement dummyToken (NodeList.ofList
          [Node.expressionStatement dummyToken
            (Node.ifExpression dummyToken (Node.booleanLiteral dummyToken true)
              (Node.blockStatement dummyToken (NodeList.ofList
                [Node.returnStatement dummyToken (Node.integerLiteral dummyToken 1)]))
              Node.nilNode),
           Node.returnStatement dummyToken (Node.integerLiteral dummyToken 0)]))
        Node.nilNode)])

/-- The AST of `if (1) { 10 } else { 20 }` as a one-statement program. -/
def progIfOne : Node :=
  Node.program (NodeList.ofList
    [Node.expressionStatement dummyToken
      (Node.ifExpression dummyToken (Node.integerLiteral dummyToken 1)
        (Node.blockStatement dummyToken (NodeList.ofList
          [Node.expressionStatement dummyToken (Node.integerLiteral dummyToken 10)]))
        (Node.blockStatement dummyToken (NodeList.ofList
          [Node.expressionStatement dummyToken (Node.integerLiteral dummyToken 20)])))])

/-- The AST of `if (0) { 10 }` (no alternative) as a one-statement
program. -/
def progIfZero : Node :=
  Node.program (NodeList.ofList
    [Node.expressionStatement dummyToken
      (Node.ifExpression dummyToken (Node.integerLiteral dummyToken 0)
        (Node.blockStatement dummyToken (NodeList.ofList
          [Node.expressionStatement dummyToken (Node.integerLiteral dummyToken 10)]))
        Node.nilNode)])

/-- The AST of the single statement `let x = if (true) { let y = 5; foobar };`:
a `LetStatement` whose value expression's evaluation first binds `y` in the
same (shared) environment and then fails with an unbound identifier. -/
def progLetErrValue : Node :=
  Node.letStatement dummyToken { token := dummyToken, value := "x" }
    (Node.ifExpression dummyToken (Node.booleanLiteral dummyToken true)
      (Node.blockStatement dummyToken (NodeList.ofList
        [Node.letStatement dummyToken { token := dummyToken, value := "y" }
          (Node.integerLiteral dummyToken 5),
         Node.expressionStatement dummyToken (Node.identifier dummyToken "foobar")]))
      Node.nilNode)

/-- The AST that `parseProgram` produces for `let x = 5; -x;`: the let's
value is never parsed (nil), so evaluating the program binds `x` to Go's
nil interface, and the subsequent `-x` makes
`evalMinusPrefixOperatorExpression` dereference a nil interface
(`right.Type()`, `evaluator/evaluator.go:162`) — a host panic. -/
def progLetNilThenMinus : Node :=
  Node.program (NodeList.ofList
    [Node.letStatement { type := token.LET, literal := "let" }
      { token := { type := token.IDENT, literal := "x" }, value := "x" }
      Node.nilNode,
     Node.expressionStatement { type := token.MINUS, literal := "-" }
      (Node.prefixExpression { type := token.MINUS, literal := "-" } "-"
        (Node.identifier { type := token.IDENT, literal := "x" } "x"))])

/-- The stores of an environment chain, innermost first: the observation
function used to state the innermost-first lookup claim. -/
def chainStores : Environment → List (List (String × Option Object))
  | .mk store EnvOpt.none => [store]
  | .mk store (EnvOpt.some o) => store :: chainStores o

/-- Specification-side lookup, written from the claim's words rather than
from `Environment.Get`: scan the chain's stores innermost-first and return
the first binding found.  `Environment.Get` is proved equal to it. -/
def chainLookupSpec (env : Environment) (name : String) : Option (Option Object) :=
  (chainStores env).findSome? (fun st => storeGet st name)

/-! Helper lemmas.  First the lexer-at-end-of-input facts used to refute
termination of the parser's semicolon-skipping loop, then small environment
lemmas shared by the evaluation theorems. -/

lemma skipWhitespace_of_not_ws (l : Lexer) (h : lexIsWhitespace l.ch = false) :
    l.skipWhitespace = l := by
  unfold Lexer.skipWhitespace
  unfold Lexer.skipWhitespaceAux
  simp [h]

lemma nextToken_atEOF (l : Lexer) (h1 : l.ch = '\x00')
    (h2 : l.input.length ≤ l.readPosition) :
    l.NextToken = ({ type := token.EOF, literal := "" }, l.readChar) ∧
      l.readChar.ch = '\x00' ∧ l.readChar.input.length ≤ l.readChar.readPosition := by
  have hsw : l.skipWhitespace = l := skipWhitespace_of_not_ws l (by rw [h1]; decide)
  refine ⟨?_, ?_, ?_⟩
  · unfold Lexer.NextToken
    rw [hsw]
    simp [h1, newToken]
  · unfold Lexer.readChar
    simp [h2]
  · unfold Lexer.readChar
    simp
    omega

lemma skipToSemicolon_stuck (fuel : Nat) :
    ∀ p : Parser, p.currToken.type ≠ token.SEMICOLON →
      p.peekToken.type ≠ token.SEMICOLON →
      p.l.ch = '\x00' → p.l.input.length ≤ p.l.readPosition →
      Parser.skipToSemicolon fuel p = none := by
  induction fuel with
  | zero => intro p _ _ _ _; rfl
  | succ n ih =>
    intro p h1 h2 h3 h4
    unfold Parser.skipToSemicolon
    have hc : p.currTokenIs token.SEMICOLON = false := by
      simp [Parser.currTokenIs, h1]
    rw [hc]
    simp only [Bool.false_eq_true, if_false]
    obtain ⟨hnt, hch, hrp⟩ := nextToken_atEOF p.l h3 h4
    apply ih
    · simp [Parser.nextToken, h2]
    · simp [Parser.nextToken, hnt]
      decide
    · simp [Parser.nextToken, hnt, hch]
    · simp [Parser.nextToken, hnt, hrp]

lemma parseLetStatement_none (fuel : Nat) (p : Parser)
    (h1 : (p.expectPeek token.IDENT).1 = true)
    (h2 : ((p.expectPeek token.IDENT).2.expectPeek token.ASSIGN).1 = true)
    (h3 : Parser.skipToSemicolon fuel
      ((p.expectPeek token.IDENT).2.expectPeek token.ASSIGN).2 = none) :
    Parser.parseLetStatement fuel p = none := by
  unfold Parser.parseLetStatement
  rcases hp : p.expectPeek token.IDENT with ⟨b1, p1⟩
  rw [hp] at h1 h2 h3
  simp only at h1
  subst h1
  rcases hq : p1.expectPeek token.ASSIGN with ⟨b2, p2⟩
  rw [hq] at h2 h3
  simp only at h2
  subst h2
  simp only at h3
  simp only [hq, h3]

lemma parseReturnStatement_none (fuel : Nat) (p : Parser)
    (h : Parser.skipToSemicolon fuel p.nextToken = none) :
    Parser.parseReturnStatement fuel p = none := by
  unfold Parser.parseReturnStatement
  simp only [h]

lemma parseStatement_none_let (fuel : Nat) (p : Parser)
    (h1 : p.currToken.type = token.LET)
    (h2 : Parser.parseLetStatement fuel p = none) :
    Parser.parseStatement fuel p = none := by
  unfold Parser.parseStatement
  simp [h1, h2]

lemma parseStatement_none_ret (fuel : Nat) (p : Parser)
    (h1 : p.currToken.type = token.RETURN)
    (h2 : Parser.parseReturnStatement fuel p = none) :
    Parser.parseStatement fuel p = none := by
  unfold Parser.parseStatement
  simp [h1, h2, token.RETURN, token.LET]

lemma ParseProgramLoop_none (fuel : Nat) (p : Parser) (acc : List Node)
    (h1 : p.currTokenIs token.EOF = false)
    (h2 : Parser.parseStatement fuel p = none) :
    Parser.ParseProgramLoop (fuel + 1) p acc = none := by
  unfold Parser.ParseProgramLoop
  simp [h1, h2]

lemma ParseProgram_none (fuel : Nat) (p : Parser)
    (h : Parser.ParseProgramLoop fuel p [] = none) :
    Parser.ParseProgram fuel p = none := by
  unfold Parser.ParseProgram
  simp [h]

lemma parseProgram_none (fuel : Nat) (input : String)
    (h : Parser.ParseProgram fuel (Parser.New (Lexer.New input.toList)) = none) :
    parseProgram fuel input = none := by
  unfold parseProgram
  simp only []
  simp only [String.toList] at h
  simp [h]

lemma storeGet_storeSet_self (st : List (String × Option Object)) (n : String)
    (v : Option Object) : storeGet (storeSet st n v) n = some v := by
  induction st with
  | nil => simp [storeSet, storeGet]
  | cons kv rest ih =>
    obtain ⟨k, w⟩ := kv
    by_cases hk : k = n
    · subst hk; simp [storeSet, storeGet]
    · simp [storeSet, storeGet, hk, ih]

lemma storeGet_storeSet_ne (st : List (String × Option Object)) (n m : String)
    (v : Option Object) (h : m ≠ n) : storeGet (storeSet st n v) m = storeGet st m := by
  have hnm : ¬ n = m := fun hh => h hh.symm
  induction st with
  | nil => simp [storeSet, storeGet, hnm]
  | cons kv rest ih =>
    obtain ⟨k, w⟩ := kv
    by_cases hk : k = n
    · subst hk
      simp [storeSet, storeGet, hnm]
    · by_cases hm : k = m
      · subst hm; simp [storeSet, storeGet, hk]
      · simp [storeSet, storeGet, hk, hm, ih]

lemma Environment.outer_Set (e : Environment) (n : String) (v : Option Object) :
    (e.Set n v).outer = e.outer := by
  cases e; rfl

lemma Environment.Get_Set_self (e : Environment) (n : String) (v : Option Object) :
    (e.Set n v).Get n = some v := by
  cases e with
  | mk st o =>
    unfold Environment.Set
    rw [Environment.store, Environment.outer]
    cases o with
    | none => rw [Environment.Get, storeGet_storeSet_self]
    | some o2 => rw [Environment.Get, storeGet_storeSet_self]

lemma Environment.Get_Set_ne (e : Environment) (n m : String) (v : Option Object)
    (h : m ≠ n) : (e.Set n v).Get m = e.Get m := by
  cases e with
  | mk st o =>
    unfold Environment.Set
    rw [Environment.store, Environment.outer]
    cases o with
    | none => rw [Environment.Get, Environment.Get, storeGet_storeSet_ne st n m v h]
    | some o2 => rw [Environment.Get, Environment.Get, storeGet_storeSet_ne st n m v h]

/-- `Environment.Get` equals the specification-side innermost-first chain
scan. -/
theorem Get_eq_chainLookupSpec : ∀ (env : Environment) (name : String),
    Environment.Get env name = chainLookupSpec env name
  | .mk store EnvOpt.none, name => by
    rw [Environment.Get]
    unfold chainLookupSpec chainStores
    cases hsg : storeGet store name <;> simp [hsg, List.findSome?]
  | .mk store (EnvOpt.some o), name => by
    have ih := Get_eq_chainLookupSpec o name
    rw [Environment.Get]
    unfold chainLookupSpec chainStores
    cases hsg : storeGet store name <;>
      simp [hsg, List.findSome?, ih, chainLookupSpec]

/-- `Environment.Get` misses exactly when every store in the chain misses. -/
theorem Get_none_iff : ∀ (env : Environment) (name : String),
    Environment.Get env name = none ↔ ∀ st ∈ chainStores env, storeGet st name = none
  | .mk store EnvOpt.none, name => by
    rw [Environment.Get]
    unfold chainStores
    cases hsg : storeGet store name <;> simp [hsg]
  | .mk store (EnvOpt.some o), name => by
    have ih := Get_none_iff o name
    rw [Environment.Get]
    unfold chainStores
    cases hsg : storeGet store name <;> simp [hsg, ih]

/-- Claim C1.  The claim asserts that `parseProgram` turns `5 + 5 * 2;`
into the expression tree `(5 + (5 * 2))` and that `parseExpression`
repeatedly absorbs infix operators of higher precedence.  The code does
neither — this theorem evaluates the code at the claim's input: the input
parses into five statements (the three integer literals as expression
statements, plus two expression statements with nil expressions where `+`
and `*` had no prefix parse function) with two diagnostics; and
`parseExpression` is proved independent of its `minPrecedence` argument,
so no precedence-driven absorption exists at all. -/
theorem claimC1_parseExpression_has_no_infix_loop :
    (parseProgram 100 "5 + 5 * 2;" =
      some (Node.program (NodeList.ofList
        [Node.expressionStatement { type := token.INT, literal := "5" }
           (Node.integerLiteral { type := token.INT, literal := "5" } 5),
         Node.expressionStatement { type := token.PLUS, literal := "+" } Node.nilNode,
         Node.expressionStatement { type := token.INT, literal := "5" }
           (Node.integerLiteral { type := token.INT, literal := "5" } 5),
         Node.expressionStatement { type := token.ASTERISK, literal := "*" } Node.nilNode,
         Node.expressionStatement { type := token.INT, literal := "2" }
           (Node.integerLiteral { type := token.INT, literal := "2" } 2)]),
       ["no prefix parse function for + found", "no prefix parse function for * found"])) ∧
    (∀ fuel prec1 prec2 p,
      Parser.parseExpression fuel prec1 p = Parser.parseExpression fuel prec2 p) := by
  constructor
  · rfl
  · intro fuel prec1 prec2 p
    cases fuel with
    | zero => rfl
    | succ n => rfl

/-- Claim C2.  The claim asserts that parsing `let x = 5;` yields one
`LetStatement` named `x` with value `IntegerLiteral(5)` and no
diagnostics.  This theorem evaluates the code at that input: the parse
does yield exactly one `LetStatement` with target `x` and an empty
diagnostics list, but its value field is nil — `parseLetStatement` skips
the value expression (`TODO` at `parser.go:95`). -/
theorem claimC2_let_value_not_parsed :
    parseProgram 100 "let x = 5;" =
      some (Node.program (NodeList.ofList
        [Node.letStatement { type := token.LET, literal := "let" }
          { token := { type := token.IDENT, literal := "x" }, value := "x" }
          Node.nilNode]),
        []) := by
  rfl

/-- Claim C3, counterexample.  Evaluating `5 / 0;` does not yield an
`Error` value: the unguarded Go division panics, an out-of-band failure
(`EvalResult.panic`), leaving no `Error` result. -/
theorem claimC3_division_by_zero_panics :
    Eval progDivZero NewEnvironment 0 =
      (EvalResult.panic "integer divide by zero", NewEnvironment, 2) := by
  rfl

/-- Claim C3, amended.  Restricted to two `Integer` operands, infix
evaluation returns an ordinary (`ok`) result for every operator — an
`Error` value for unknown operators included — with one exception:
division whose right operand is `Integer(0)` panics rather than
returning an `Error`, while nonzero divisors yield an `Integer`.  The
claim's `Eval`-wide "never an out-of-band failure" discipline does not
hold, and division by zero is not its sole exception either: the input
`let x = 5; -x;` parses with zero diagnostics (the let's value is never
parsed, so evaluation binds `x` to Go's nil interface), and evaluating
the parsed program panics with a nil-interface dereference at
`right.Type()` in `evalMinusPrefixOperatorExpression`
(`evaluator/evaluator.go:162`) — a second kind of out-of-band failure. -/
theorem claimC3_amended_division_behavior :
    (∀ i j lv rv σ,
      evalInfixIntegerExpression token.SLASH (Object.integer i lv) (Object.integer j rv) σ =
        if rv = 0 then (EvalResult.panic "integer divide by zero", σ)
        else (EvalResult.ok (Option.some (Object.integer σ (wrap64 (lv.tdiv rv)))), σ + 1)) ∧
    (∀ op i j lv rv σ, op ≠ token.SLASH →
      ∃ res σ2, evalInfixIntegerExpression op (Object.integer i lv) (Object.integer j rv) σ =
        (EvalResult.ok res, σ2)) ∧
    (parseProgram 100 "let x = 5; -x;" = some (progLetNilThenMinus, [])) ∧
    (Eval progLetNilThenMinus NewEnvironment 0 =
      (EvalResult.panic "invalid memory address or nil pointer dereference",
       Environment.mk [("x", Option.none)] EnvOpt.none, 0)) := by
  refine ⟨?_, ?_, rfl, rfl⟩
  · intro i j lv rv σ
    rfl
  · intro op i j lv rv σ hop
    unfold evalInfixIntegerExpression
    simp only []
    split_ifs <;> exact ⟨_, _, rfl⟩

/-- Witness for the amended claim C3: at `5 / 0` the division panics, and
at `2 + 3` the addition returns an ordinary result. -/
theorem claimC3_amended_division_behavior_witness :
    evalInfixIntegerExpression token.SLASH (Object.integer 0 5) (Object.integer 1 0) 2 =
      (EvalResult.panic "integer divide by zero", 2) ∧
    (∃ res σ2,
      evalInfixIntegerExpression token.PLUS (Object.integer 0 2) (Object.integer 1 3) 0 =
        (EvalResult.ok res, σ2)) :=
  ⟨by simpa using claimC3_amended_division_behavior.1 0 1 5 0 2,
   claimC3_amended_division_behavior.2.1 token.PLUS 0 1 2 3 0 (by decide)⟩

/-- Claim C4.  The claim asserts that `parseProgram` terminates on every
finite token stream, consuming a missing `;` opportunistically.  It does
not: on `let x = 5` (and `return 5`) with the terminating `;` absent at
end of input, the skip loop `for !p.currTokenIs(token.SEMICOLON)` never
tests for `EOF` while the lexer yields `EOF` tokens forever, so parsing
runs forever — for every fuel bound the embedded parser is still
running. -/
theorem claimC4_parser_diverges_without_semicolon :
    (∀ fuel, parseProgram fuel "let x = 5" = none) ∧
    (∀ fuel, parseProgram fuel "return 5" = none) := by
  constructor
  · intro fuel
    cases fuel with
    | zero => rfl
    | succ n =>
      apply parseProgram_none
      apply ParseProgram_none
      apply ParseProgramLoop_none
      · decide
      · apply parseStatement_none_let
        · decide
        · apply parseLetStatement_none
          · decide
          · decide
          · apply skipToSemicolon_stuck
            · decide
            · decide
            · decide
            · decide
  · intro fuel
    cases fuel with
    | zero => rfl
    | succ n =>
      apply parseProgram_none
      apply ParseProgram_none
      apply ParseProgramLoop_none
      · decide
      · apply parseStatement_none_ret
        · decide
        · apply parseReturnStatement_none
          apply skipToSemicolon_stuck
          · decide
          · decide
          · decide
          · decide

/-- Claim C5.  Evaluating `if (true) { if (true) { return 1; } return 0; }`
as a program yields `Integer(1)`; in general a statement that evaluates to
a `ReturnValue` makes `evalBlockStatement` stop and yield that
`ReturnValue` unchanged — the following statements (`return 0;` included)
are never evaluated, whatever they are — while `evalProgram` stops and
yields the unwrapped inner value. -/
theorem claimC5_nested_return_propagation :
    (Eval progNestedReturn NewEnvironment 0 =
      (EvalResult.ok (Option.some (Object.integer 0 1)), NewEnvironment, 2)) ∧
    (∀ s rest acc env σ e s2 i v,
      Eval s env σ = (EvalResult.ok (Option.some (Object.returnValue i v)), e, s2) →
      evalBlockStatement (NodeList.cons s rest) acc env σ =
        (EvalResult.ok (Option.some (Object.returnValue i v)), e, s2)) ∧
    (∀ s rest acc env σ e s2 i v,
      Eval s env σ = (EvalResult.ok (Option.some (Object.returnValue i v)), e, s2) →
      evalProgram (NodeList.cons s rest) acc env σ = (EvalResult.ok v.toOption, e, s2)) := by
  refine ⟨rfl, ?_, ?_⟩
  · intro s rest acc env σ e s2 i v h
    unfold evalBlockStatement
    simp [h, Object.objType, object.RETURN_VALUE_OBJ, object.ERROR_OBJ]
  · intro s rest acc env σ e s2 i v h
    unfold evalProgram
    simp [h]

/-- Witness for claim C5: a `return 7;` statement followed by the
statement `9;` — the block yields the `ReturnValue` unchanged and the
program yields the unwrapped `Integer(7)`; the trailing statement is
never evaluated (the allocation counter stops at 2). -/
theorem claimC5_nested_return_propagation_witness :
    evalBlockStatement (NodeList.cons
        (Node.returnStatement dummyToken (Node.integerLiteral dummyToken 7))
        (NodeList.cons
          (Node.expressionStatement dummyToken (Node.integerLiteral dummyToken 9))
          NodeList.nil))
      Option.none NewEnvironment 0 =
      (EvalResult.ok (Option.some
        (Object.returnValue 1 (ObjOpt.some (Object.integer 0 7)))), NewEnvironment, 2) ∧
    evalProgram (NodeList.cons
        (Node.returnStatement dummyToken (Node.integerLiteral dummyToken 7))
        (NodeList.cons
          (Node.expressionStatement dummyToken (Node.integerLiteral dummyToken 9))
          NodeList.nil))
      Option.none NewEnvironment 0 =
      (EvalResult.ok (Option.some (Object.integer 0 7)), NewEnvironment, 2) := by
  constructor
  · exact claimC5_nested_return_propagation.2.1 _ _ _ _ _ _ _ _ _ rfl
  · exact claimC5_nested_return_propagation.2.2 _ _ _ _ _ _ _ 1
      (ObjOpt.some (Object.integer 0 7)) rfl

/-- Claim C6.  Evaluating `if (1) { 10 } else { 20 }` yields `Integer(10)`
and `if (0) { 10 }` (no alternative) yields the shared `Null`; the
truthiness rule maps a `Boolean` to its value, `Null` to false, an
`Integer` to whether its value is nonzero, and every other variant
(`ReturnValue`, `Error`) to true. -/
theorem claimC6_if_truthiness :
    (Eval progIfOne NewEnvironment 0 =
      (EvalResult.ok (Option.some (Object.integer 1 10)), NewEnvironment, 2)) ∧
    (Eval progIfZero NewEnvironment 0 =
      (EvalResult.ok (Option.some Object.null), NewEnvironment, 1)) ∧
    (∀ b, isTruthy (Object.boolean b) = b) ∧
    (isTruthy Object.null = false) ∧
    (∀ i v, isTruthy (Object.integer i v) = true ↔ v ≠ 0) ∧
    (∀ i v, isTruthy (Object.returnValue i v) = true) ∧
    (∀ i m, isTruthy (Object.error i m) = true) := by
  refine ⟨rfl, rfl, ?_, rfl, ?_, fun i v => rfl, fun i m => rfl⟩
  · intro b; cases b <;> rfl
  · intro i v
    simp [isTruthy, Object.objType, object.INTEGER_OBJ, object.BOOLEAN_OBJ, object.NULL_OBJ]

/-- Claim C7.  On two `Integer` operands, `==` and `!=` compare the two
numeric values whatever the operands' allocation identities are; on every
pair of operands that are not both `Integer`s, `==` and `!=` return the
shared boolean of the Go reference-identity comparison (respectively its
negation); and on `Boolean` operands reference identity agrees with value
equality because only the two shared instances exist. -/
theorem claimC7_equality_semantics :
    (∀ i j a b σ,
      evalInfixExpression token.EQ (Option.some (Object.integer i a))
          (Option.some (Object.integer j b)) σ =
        (EvalResult.ok (Option.some (nativeBoolToBooleanObject (decide (a = b)))), σ)) ∧
    (∀ i j a b σ,
      evalInfixExpression token.NOT_EQ (Option.some (Object.integer i a))
          (Option.some (Object.integer j b)) σ =
        (EvalResult.ok (Option.some (nativeBoolToBooleanObject (decide (a ≠ b)))), σ)) ∧
    (∀ l r σ, ¬(l.objType = object.INTEGER_OBJ ∧ r.objType = object.INTEGER_OBJ) →
      evalInfixExpression token.EQ (Option.some l) (Option.some r) σ =
        (EvalResult.ok (Option.some (nativeBoolToBooleanObject (goRefEq l r))), σ)) ∧
    (∀ l r σ, ¬(l.objType = object.INTEGER_OBJ ∧ r.objType = object.INTEGER_OBJ) →
      evalInfixExpression token.NOT_EQ (Option.some l) (Option.some r) σ =
        (EvalResult.ok (Option.some (nativeBoolToBooleanObject (!goRefEq l r))), σ)) ∧
    (∀ a b, goRefEq (Object.boolean a) (Object.boolean b) = (a == b)) := by
  refine ⟨fun i j a b σ => rfl, fun i j a b σ => rfl, ?_, ?_, ?_⟩
  · intro l r σ h
    unfold evalInfixExpression
    by_cases hl : l.objType = object.INTEGER_OBJ
    · have hr : ¬ r.objType = object.INTEGER_OBJ := fun hr => h ⟨hl, hr⟩
      simp [hl, hr, goRefEqOpt]
    · simp [hl, goRefEqOpt]
  · intro l r σ h
    unfold evalInfixExpression
    by_cases hl : l.objType = object.INTEGER_OBJ
    · have hr : ¬ r.objType = object.INTEGER_OBJ := fun hr => h ⟨hl, hr⟩
      simp [hl, hr, goRefEqOpt, token.EQ, token.NOT_EQ]
    · simp [hl, goRefEqOpt, token.EQ, token.NOT_EQ]
  · intro a b; cases a <;> cases b <;> rfl

/-- Witness for claim C7: the identity comparisons at the shared `TRUE`
and `FALSE` singletons. -/
theorem claimC7_equality_semantics_witness :
    evalInfixExpression token.EQ (Option.some TRUE) (Option.some FALSE) 0 =
      (EvalResult.ok (Option.some (nativeBoolToBooleanObject (goRefEq TRUE FALSE))), 0) ∧
    evalInfixExpression token.NOT_EQ (Option.some TRUE) (Option.some FALSE) 0 =
      (EvalResult.ok (Option.some (nativeBoolToBooleanObject (!goRefEq TRUE FALSE))), 0) :=
  ⟨claimC7_equality_semantics.2.2.1 TRUE FALSE 0 (by decide),
   claimC7_equality_semantics.2.2.2.1 TRUE FALSE 0 (by decide)⟩

/-- Claim C8, counterexample.  The claim says that when the value
expression of a `let` evaluates to an `Error`, the environment is left
completely unchanged.  Evaluating `let x = if (true) { let y = 5; foobar }`
in an empty environment returns the "identifier not found" `Error` without
binding `x`, yet the environment is changed: the nested `let y = 5;`
executed inside the value expression's block — which shares the same
environment — has bound `y`. -/
theorem claimC8_env_modified_on_error :
    Eval progLetErrValue NewEnvironment 0 =
      (EvalResult.ok (Option.some (Object.error 1 "identifier not found: foobar")),
       Environment.mk [("y", Option.some (Object.integer 0 5))] EnvOpt.none, 2) := by
  rfl

/-- Claim C8, amended.  Evaluating a `LetStatement` first evaluates the
value expression; if the result is an `Error`, the `Error` is returned and
the let statement itself adds no binding — the environment is exactly as
the value evaluation left it (which may differ from the initial
environment, since nested `let` statements inside the value expression
share it); otherwise the result is bound to the target name in the
current (innermost) environment only: the outer reference is untouched,
the name resolves to the new value, and every other name resolves as
before. -/
theorem claimC8_amended_let_binding :
    ∀ tok nm v env σ val e s, Eval v env σ = (EvalResult.ok val, e, s) →
      (isError val = true →
        Eval (Node.letStatement tok nm v) env σ = (EvalResult.ok val, e, s)) ∧
      (isError val = false →
        Eval (Node.letStatement tok nm v) env σ =
          (EvalResult.ok Option.none, e.Set nm.value val, s) ∧
        (e.Set nm.value val).outer = e.outer ∧
        (e.Set nm.value val).Get nm.value = some val ∧
        (∀ m, m ≠ nm.value → (e.Set nm.value val).Get m = e.Get m)) := by
  intro tok nm v env σ val e s h
  constructor
  · intro herr
    unfold Eval
    simp [h, herr]
  · intro hok
    refine ⟨?_, Environment.outer_Set e nm.value val,
      Environment.Get_Set_self e nm.value val,
      fun m hm => Environment.Get_Set_ne e nm.value m val hm⟩
    unfold Eval
    simp [h, hok]

/-- Witness for the amended claim C8: `let x = 5;` under the empty
environment binds `x` in the (innermost) store and produces no value. -/
theorem claimC8_amended_let_binding_witness :
    Eval (Node.letStatement dummyToken { token := dummyToken, value := "x" }
        (Node.integerLiteral dummyToken 5)) NewEnvironment 0 =
      (EvalResult.ok Option.none,
       NewEnvironment.Set "x" (Option.some (Object.integer 0 5)), 1) :=
  ((claimC8_amended_let_binding dummyToken { token := dummyToken, value := "x" }
    (Node.integerLiteral dummyToken 5) NewEnvironment 0
    (Option.some (Object.integer 0 5)) NewEnvironment 1 rfl).2 rfl).1

/-- Claim C9.  `Environment.Get` resolves names innermost-first: it equals
the specification-side scan of the chain's stores from the innermost
outwards, and it reports absence exactly when no store in the chain binds
the name; evaluating the identifier `foobar` under the empty environment
yields an `Error` whose message is `"identifier not found: " ++ "foobar"`
— containing both the fixed text and the name. -/
theorem claimC9_innermost_lookup :
    (∀ env name, Environment.Get env name = chainLookupSpec env name) ∧
    (∀ env name, Environment.Get env name = none ↔
      ∀ st ∈ chainStores env, storeGet st name = none) ∧
    (Eval (Node.identifier dummyToken "foobar") NewEnvironment 0 =
      (EvalResult.ok (Option.some (Object.error 0 ("identifier not found: " ++ "foobar"))),
       NewEnvironment, 1)) :=
  ⟨Get_eq_chainLookupSpec, Get_none_iff, rfl⟩

/-- Claim C10.  `Eval` can return Go's nil (the absent value, `ok none`)
at its public interface: a `Program` with no statements evaluates to the
absent value; a `Program` whose final statement is a successful
`LetStatement` evaluates to the absent value (the `LetStatement` arm
produces no value — it falls through the switch to `return nil`); and a
node outside the handled variant set (the nil node, which matches no case
of the type switch) evaluates to the absent value. -/
theorem claimC10_eval_absent_results :
    (∀ env σ, Eval (Node.program NodeList.nil) env σ = (EvalResult.ok Option.none, env, σ)) ∧
    (∀ env σ tok nm,
      Eval (Node.program (NodeList.cons
          (Node.letStatement tok nm (Node.integerLiteral tok 5)) NodeList.nil)) env σ =
        (EvalResult.ok Option.none,
         env.Set nm.value (Option.some (Object.integer σ 5)), σ + 1)) ∧
    (∀ env σ, Eval Node.nilNode env σ = (EvalResult.ok Option.none, env, σ)) :=
  ⟨fun _ _ => rfl, fun _ _ _ _ => rfl, fun _ _ => rfl⟩
